import Mathlib

set_option linter.unusedVariables false

/-!
Shallow embedding of the aggregation core of
`src/vs/workbench/contrib/timeline/browser/timelinePane.ts`: the
merge/dedup/sort algorithm (`mergeItems`, `replaceItems`, `sortItems`),
per-source cursor bookkeeping, pending-request tracking, and the completion
handler (`handleRequest`), together with proofs about the claims of the
specification.

JavaScript `Map`s are embedded as insertion-ordered association lists,
cancellation token sources as numeric token ids plus a set of cancelled ids
in the pane state, and `x.localeCompare(y, undefined, { numeric: true,
sensitivity: 'base' })` as a three-way comparison of explicit collation keys
(maximal digit runs collate numerically, other characters case-folded).
-/

/-- `const InitialPageSize = 20`. -/
def InitialPageSize : Nat := 20

/-- `const SubsequentPageSize = 40`. -/
def SubsequentPageSize : Nat := 40

/-- A `TreeElement` (`TimelineItem | CommandItem`). `timestamp` is a required
`number` on both alternatives; `id` and `source` are optional (a
`CommandItem` carries `id: undefined, source: undefined`). `themeIcon`
models the transient busy icon of the load-more command item. -/
structure TreeElement where
  handle : String
  timestamp : Int
  label : String
  id : Option String
  source : Option String
  themeIcon : Option String
deriving DecidableEq

/-- `isLoadMoreCommandItem(item)`: `item?.handle === 'vscode-command:loadMore'`. -/
def isLoadMoreCommandItem (item : TreeElement) : Bool :=
  item.handle == "vscode-command:loadMore"

/-- A cursor pair `{ before: any; after?: any }`. -/
structure CursorPair where
  before : String
  after : Option String
deriving DecidableEq

/-- `TimelineCursors`: per-source pagination state. -/
structure TimelineCursors where
  startCursors : Option CursorPair
  endCursors : Option CursorPair
  more : Bool
deriving DecidableEq

/-- The `paging` part of a `Timeline` result: `{ cursors, more? }`. -/
structure Paging where
  cursors : CursorPair
  more : Option Bool
deriving DecidableEq

/-- A `Timeline` fetch result: `{ source, items, paging? }`. -/
structure Timeline where
  source : String
  items : List TreeElement
  paging : Option Paging
deriving DecidableEq

/-- A limit slot value: the field is `any`-typed in the source; the reset
branch of `loadTimeline` plugs `cursors?.endCursors?.after` (a cursor) into
it, so it holds either a page size or a cursor value. -/
abbrev LimitVal := Nat ⊕ String

/-- `TimelineOptions` (`{ cursor?, before?, limit? }`). -/
structure TimelineOptions where
  cursor : Option String := none
  before : Bool := false
  limit : Option LimitVal := none
deriving DecidableEq

/-- `TimelineRequest`: source id, target uri at issue time, the options it was
issued with, and its cancellation token source (modelled by a numeric token
id; the set of cancelled token ids lives in the pane state). -/
structure TimelineRequest where
  source : String
  uri : String
  options : TimelineOptions
  tokenId : Nat
deriving DecidableEq

/-- The mutable fields of `TimelinePane` that the claims are about. The two
`Map`s are insertion-ordered association lists. `cancelled` is the set of
token ids on which `tokenSource.dispose(true)` was called; `nextToken`
supplies fresh `CancellationTokenSource`s. `pendingRefresh` records a queued
`refreshDebounced` whose timer has not fired yet. -/
structure PaneState where
  items : List TreeElement
  cursorsByProvider : List (String × TimelineCursors)
  pendingRequests : List (String × TimelineRequest)
  cancelled : List Nat
  nextToken : Nat
  uri : Option String
  message : Option String
  pendingRefresh : Bool
deriving DecidableEq

/-- `Map.prototype.set`: replaces the value of an existing key in place,
otherwise appends the new entry. -/
def mapSet {α : Type} (m : List (String × α)) (k : String) (v : α) :
    List (String × α) :=
  if m.any (fun kv => kv.1 == k) then
    m.map (fun kv => if kv.1 == k then (kv.1, v) else kv)
  else
    m ++ [(k, v)]

/-- `Map.prototype.delete`. -/
def mapDelete {α : Type} (m : List (String × α)) (k : String) :
    List (String × α) :=
  m.filter (fun kv => kv.1 != k)

/-- ASCII case folding; models the `sensitivity: 'base'` (case-insensitive)
collation option of `localeCompare`. -/
def lowerChar (c : Char) : Char :=
  if c.isUpper then Char.ofNat (c.toNat + 32) else c

/-- Collation key for the `numeric: true, sensitivity: 'base'` collator:
a maximal digit run collates as one numeric token (kind tag 0), any other
character as a case-folded character token (kind tag 1). Tokens are
flattened into kind/value pairs so that plain lexicographic comparison of
the flat key realises the numeric-aware, case-insensitive comparison.
`acc` carries the value of the digit run currently being read. -/
def tokenize (acc : Option Nat) : List Char → List Nat
  | [] =>
    match acc with
    | some n => [0, n]
    | none => []
  | c :: rest =>
    if c.isDigit then
      tokenize (some ((acc.getD 0) * 10 + (c.toNat - 48))) rest
    else
      match acc with
      | some n => 0 :: n :: 1 :: (lowerChar c).toNat :: tokenize none rest
      | none => 1 :: (lowerChar c).toNat :: tokenize none rest

/-- Flattened collation key of a string. -/
def strKey (s : String) : List Nat := tokenize none s.data

/-- Strict lexicographic comparison of flattened collation keys. -/
def keyLt : List Nat → List Nat → Bool
  | [], [] => false
  | [], _ :: _ => true
  | _ :: _, [] => false
  | a :: as, b :: bs => decide (a < b) || (a == b && keyLt as bs)

/-- Model of `x.localeCompare(y, undefined, { numeric: true, sensitivity:
'base' })`: negative, zero or positive according to the collation keys. -/
def localeCompareNB (x y : String) : Int :=
  if keyLt (strKey x) (strKey y) then -1
  else if keyLt (strKey y) (strKey x) then 1
  else 0

/-- The comparator of `sortItems` (lines 503–512):
`(b.timestamp - a.timestamp) || (a.source === undefined ? (b.source ===
undefined ? 0 : 1) : b.source === undefined ? -1 :
b.source.localeCompare(a.source, undefined, ...))`; `x || y` yields `y`
exactly when `x` is `0`. -/
def compareItems (a b : TreeElement) : Int :=
  if b.timestamp - a.timestamp = 0 then
    match a.source, b.source with
    | none, none => 0
    | none, some _ => 1
    | some _, none => -1
    | some x, some y => localeCompareNB y x
  else b.timestamp - a.timestamp

/-- The sort relation induced by the comparator. -/
def ItemLe (a b : TreeElement) : Prop := compareItems a b ≤ 0

instance : DecidableRel ItemLe := fun a b =>
  inferInstanceAs (Decidable (compareItems a b ≤ 0))

/-- `this._items.sort(comparator)`; `Array.prototype.sort` is embedded as a
stable comparison sort with the same comparator. -/
def sortItems (l : List TreeElement) : List TreeElement :=
  l.insertionSort ItemLe

/-- `ids.has(item.id)` where `ids` holds the defined incoming ids:
membership of an undefined id in the id set is false. -/
def idSetHas (ids : List String) : Option String → Bool
  | some i => ids.contains i
  | none => false

/-- `mergeItems(source, items, options)` (lines 441–480). `current` stands
for `this._items`; the returned Bool is the changed flag. The downward
`while (i--)` splice scan over the first `min(SubsequentPageSize, length)`
positions is embedded as filtering that prefix (a splice at index `i` does
not disturb the indices below `i` that the scan still visits).
`item.timestamp === undefined` is constantly false because `timestamp` is a
required `number` on `TreeElement`. -/
def mergeItems (current : List TreeElement) (source : String)
    (items : Option (List TreeElement)) (options : TimelineOptions) :
    List TreeElement × Bool :=
  match items with
  | none => (current, false)
  | some its =>
    if its.length = 0 then (current, false)
    else if options.before then
      let ids : List String := its.filterMap (fun item => item.id)
      let timestamps : List Int :=
        (its.filter (fun item => item.id == none)).map (fun item => item.timestamp)
      let n : Nat := min SubsequentPageSize current.length
      let kept : List TreeElement :=
        ((current.take n).filter (fun item =>
          !((item.id == none && idSetHas ids item.id) ||
            (false && timestamps.contains item.timestamp))))
          ++ current.drop n
      (sortItems (its ++ kept), true)
    else
      (sortItems (current ++ its), true)

/-- `replaceItems(source, items)` (lines 482–501) over
`current = this._items`; the Bool is the returned changed flag. -/
def replaceItems (current : List TreeElement) (source : String)
    (items : Option (List TreeElement)) : List TreeElement × Bool :=
  match items with
  | some its =>
    if its.length ≠ 0 then
      (sortItems ((current.filter (fun item => item.source != some source)) ++ its), true)
    else if current.length != 0 && current.any (fun item => item.source == some source) then
      (current.filter (fun item => item.source != some source), true)
    else (current, false)
  | none =>
    if current.length != 0 && current.any (fun item => item.source == some source) then
      (current.filter (fun item => item.source != some source), true)
    else (current, false)

/-- The cursor bookkeeping of `handleRequest` (lines 363–382): the update
applied to one source's cursor record for one `paging` result. -/
def recordPage (existing : Option TimelineCursors) (paging : Paging)
    (before : Bool) : TimelineCursors :=
  match existing with
  | none =>
    { startCursors := some paging.cursors, endCursors := none,
      more := paging.more.getD false }
  | some cursors =>
    if before then
      let cursors :=
        if cursors.endCursors = none then
          { cursors with endCursors := cursors.startCursors }
        else cursors
      { cursors with startCursors := some paging.cursors,
                     more := paging.more.getD true }
    else
      let cursors :=
        if cursors.startCursors = none then
          { cursors with startCursors := some paging.cursors }
        else cursors
      { cursors with endCursors := some paging.cursors,
                     more := paging.more.getD true }

/-- The `timeline.paging !== undefined` branch of `handleRequest`: look up
the record under `timeline.source ?? source` (`source` is a required field
of `Timeline`, so the fallback never applies) and store the updated record
under `timeline.source`. -/
def applyPaging (cursors : List (String × TimelineCursors)) (t : Timeline)
    (before : Bool) : List (String × TimelineCursors) :=
  match t.paging with
  | some p => mapSet cursors t.source (recordPage (cursors.lookup t.source) p before)
  | none => cursors

/-- Truthiness of `timeline.paging?.more`. -/
def pagingMoreFlag (t : Timeline) : Bool :=
  match t.paging with
  | some p => p.more.getD false
  | none => false

/-- `Iterator.some(this._cursorsByProvider.values(), cursors => cursors.more)`. -/
def anyCursorMore (cursors : List (String × TimelineCursors)) : Bool :=
  cursors.any (fun kv => kv.2.more)

/-- The pushed load-more command item (`handle: 'vscode-command:loadMore'`,
`timestamp: 0`, no icon). -/
def loadMoreItem : TreeElement :=
  { handle := "vscode-command:loadMore", timestamp := 0, label := "Load more",
    id := none, source := none, themeIcon := none }

/-- Lines 407–430 of `handleRequest`: sentinel maintenance once no request
is pending and the list is non-empty. Mutating `lastItem.themeIcon` in place
is embedded as replacing the last entry. -/
def updateSentinel (items : List TreeElement) (pagingMore anyMore : Bool) :
    List TreeElement :=
  match items.getLast? with
  | some lastItem =>
    if pagingMore || anyMore then
      if isLoadMoreCommandItem lastItem then
        items.dropLast ++ [{ lastItem with themeIcon := none }]
      else items ++ [loadMoreItem]
    else
      if isLoadMoreCommandItem lastItem then items.dropLast else items
  | none =>
    if pagingMore || anyMore then items ++ [loadMoreItem] else items

/-- `refresh()`: clears the loading-message timer (outside this model), sets
the "no timeline information" message exactly when the list is empty, and
pushes the list to the tree widget (presentation, outside this model). -/
def refresh (st : PaneState) : PaneState :=
  { st with
    message :=
      if st.items.length = 0 then some "No timeline information was provided."
      else none }

/-- `@debounce(500) refreshDebounced()`: queues a deferred `refresh`; the
timer itself is outside this model. -/
def refreshDebounced (st : PaneState) : PaneState :=
  { st with pendingRefresh := true }

/-- Lines 391–396 of `handleRequest`: dispatch on `request.options.cursor`
truthiness between an incremental merge and a full replace. -/
def applyItems (current : List TreeElement) (req : TimelineRequest)
    (its : List TreeElement) : List TreeElement × Bool :=
  if req.options.cursor.isSome then mergeItems current req.source (some its) req.options
  else replaceItems current req.source (some its)

/-- Outcome of awaiting `request.result`: the promise either rejects or
resolves to `Timeline | undefined`. -/
inductive FetchOutcome where
  | threw : FetchOutcome
  | resolved : Option Timeline → FetchOutcome
deriving DecidableEq

/-- `handleRequest` (lines 341–439) as the state transformer applied when
the awaited fetch settles. The `finally` clause always removes the pending
entry; a rejection propagates with no further effect; a resolved result is
dropped by the guard when it is `undefined`, its token was cancelled, or the
target uri changed. The `else { this._cursorsByProvider.delete(source) }`
branch of the source (line 385) sits behind that guard, which already
returned on `timeline === undefined`, and is therefore unreachable. -/
def handleRequest (st : PaneState) (req : TimelineRequest)
    (outcome : FetchOutcome) : PaneState :=
  let st1 := { st with pendingRequests := mapDelete st.pendingRequests req.source }
  match outcome with
  | .threw => st1
  | .resolved timeline =>
    match timeline with
    | none => st1
    | some t =>
      if st1.cancelled.contains req.tokenId || some req.uri != st1.uri then st1
      else
        let st2 := { st1 with
          cursorsByProvider := applyPaging st1.cursorsByProvider t req.options.before }
        let alreadyHadItems := st2.items.length != 0
        let pr := applyItems st2.items req t.items
        let st3 := { st2 with items := pr.1 }
        if pr.2 = false then
          if st3.items.length == 0 && st3.pendingRequests.length == 0 then refresh st3
          else st3
        else
          let withSentinel :=
            updateSentinel st3.items (pagingMoreFlag t) (anyCursorMore st3.cursorsByProvider)
          let st4 :=
            if st3.pendingRequests.length == 0 && st3.items.length != 0 then
              { st3 with items := withSentinel }
            else st3
          if alreadyHadItems && st4.pendingRequests.length != 0 then refreshDebounced st4
          else refresh st4

/-- Lines 272–285 of `loadTimeline`: if the last entry is the load-more item
it is marked busy (`themeIcon = { id: 'sync~spin' }`) before requests are
issued. -/
def markSentinelBusy (items : List TreeElement) : List TreeElement :=
  match items.getLast? with
  | some lastItem =>
    if isLoadMoreCommandItem lastItem then
      items.dropLast ++ [{ lastItem with themeIcon := some "sync~spin" }]
    else items
  | none => items

/-- One iteration of the per-source loop of `loadTimeline` (lines 287–338),
reached only when `this._uri` is defined, and assuming the timeline service
produces a request (the source asserts `getTimeline(...)!`). On a non-reset
load the source is skipped unless its cursors report `more === true`; the
new request reuses the pending request's token source when there is one (the
`// TODO: Handle pending request` path: the superseded request is not
cancelled). On a reset load a pending request is disposed with
`dispose(true)`, which fires its `onCancellationRequested` handler and
thereby removes the source's pending entry, before a fresh token source is
created for the replacement. -/
def loadTimelineSource (st : PaneState) (source : String) (reset : Bool)
    (options : TimelineOptions) (defaultPageSize : Nat) : PaneState :=
  let request := st.pendingRequests.lookup source
  let cursors := st.cursorsByProvider.lookup source
  if reset = false then
    if (cursors.map (fun c => c.more)).getD false = false then st
    else
      let reusingToken := request.isSome
      let tokenId := match request with | some r => r.tokenId | none => st.nextToken
      let cursor : Option String :=
        if options.before then
          (cursors.bind (fun c => c.startCursors)).map (fun p => p.before)
        else
          (((cursors.bind (fun c => c.endCursors)) <|>
            (cursors.bind (fun c => c.startCursors))).bind (fun p => p.after))
      let newLimit : Option LimitVal :=
        if options.limit = some (Sum.inl 0) then none
        else some (options.limit.getD (Sum.inl defaultPageSize))
      let newReq : TimelineRequest :=
        { source := source, uri := st.uri.getD "", tokenId := tokenId,
          options := { options with cursor := cursor, limit := newLimit } }
      { st with
        pendingRequests := mapSet st.pendingRequests source newReq,
        nextToken := if reusingToken then st.nextToken else st.nextToken + 1 }
  else
    let st1 :=
      match request with
      | some r =>
        { st with cancelled := r.tokenId :: st.cancelled,
                  pendingRequests := mapDelete st.pendingRequests source }
      | none => st
    let newLimit : Option LimitVal :=
      if options.limit = some (Sum.inl 0) then none
      else some ((((cursors.bind (fun c => c.endCursors)).bind
          (fun p => p.after)).map Sum.inr).getD
        (options.limit.getD (Sum.inl defaultPageSize)))
    let newReq : TimelineRequest :=
      { source := source, uri := st1.uri.getD "", tokenId := st1.nextToken,
        options := { options with limit := newLimit } }
    { st1 with
      pendingRequests := mapSet st1.pendingRequests source newReq,
      nextToken := st1.nextToken + 1 }

/-! ### Order properties of the sort comparator -/

theorem keyLt_asymm : ∀ x y : List Nat, keyLt x y = true → keyLt y x = true → False
  | [], [], h1, _ => by simp [keyLt] at h1
  | [], _ :: _, _, h2 => by simp [keyLt] at h2
  | _ :: _, [], h1, _ => by simp [keyLt] at h1
  | a :: as, b :: bs, h1, h2 => by
    simp only [keyLt, Bool.or_eq_true, Bool.and_eq_true, decide_eq_true_eq,
      beq_iff_eq] at h1 h2
    rcases h1 with h1 | ⟨e1, h1⟩ <;> rcases h2 with h2 | ⟨e2, h2⟩
    · omega
    · omega
    · omega
    · exact keyLt_asymm as bs h1 h2

theorem keyLt_trans : ∀ x y z : List Nat,
    keyLt x y = true → keyLt y z = true → keyLt x z = true
  | [], y, z, h1, h2 => by
    cases z with
    | nil =>
      cases y with
      | nil => simp [keyLt] at h1
      | cons b bs => simp [keyLt] at h2
    | cons c cs => simp [keyLt]
  | a :: as, y, z, h1, h2 => by
    cases y with
    | nil => simp [keyLt] at h1
    | cons b bs =>
      cases z with
      | nil => simp [keyLt] at h2
      | cons c cs =>
        simp only [keyLt, Bool.or_eq_true, Bool.and_eq_true, decide_eq_true_eq,
          beq_iff_eq] at h1 h2 ⊢
        rcases h1 with h1 | ⟨e1, h1⟩ <;> rcases h2 with h2 | ⟨e2, h2⟩
        · exact Or.inl (by omega)
        · exact Or.inl (by omega)
        · exact Or.inl (by omega)
        · exact Or.inr ⟨by omega, keyLt_trans as bs cs h1 h2⟩

theorem keyLt_connex : ∀ x y : List Nat,
    keyLt x y = false → keyLt y x = false → x = y
  | [], [], _, _ => rfl
  | [], _ :: _, h1, _ => by simp [keyLt] at h1
  | _ :: _, [], _, h2 => by simp [keyLt] at h2
  | a :: as, b :: bs, h1, h2 => by
    rw [Bool.eq_false_iff] at h1 h2
    simp only [ne_eq, keyLt, Bool.or_eq_true, Bool.and_eq_true, decide_eq_true_eq,
      beq_iff_eq, not_or, not_and] at h1 h2
    obtain ⟨h1a, h1b⟩ := h1
    obtain ⟨h2a, h2b⟩ := h2
    have e : a = b := by omega
    subst e
    have t1 : keyLt as bs = false := Bool.eq_false_iff.mpr (h1b rfl)
    have t2 : keyLt bs as = false := Bool.eq_false_iff.mpr (h2b rfl)
    rw [keyLt_connex as bs t1 t2]

theorem localeCompareNB_nonpos_iff (x y : String) :
    localeCompareNB y x ≤ 0 ↔ keyLt (strKey x) (strKey y) = false := by
  unfold localeCompareNB
  rcases h1 : keyLt (strKey y) (strKey x) <;> rcases h2 : keyLt (strKey x) (strKey y)
  · simp [h1, h2]
  · simp [h1, h2]
  · simp [h1, h2]
  · exact absurd (keyLt_asymm _ _ h1 h2) (fun h => h)

/-- The source tie-break of the comparator as a relation: its non-positive
cases. -/
def srcLe : Option String → Option String → Prop
  | none, none => True
  | none, some _ => False
  | some _, none => True
  | some x, some y => keyLt (strKey x) (strKey y) = false

theorem srcLe_total : ∀ sa sb : Option String, srcLe sa sb ∨ srcLe sb sa
  | none, none => Or.inl trivial
  | none, some _ => Or.inr trivial
  | some _, none => Or.inl trivial
  | some x, some y => by
    rcases h : keyLt (strKey x) (strKey y)
    · exact Or.inl h
    · rcases h2 : keyLt (strKey y) (strKey x)
      · exact Or.inr h2
      · exact absurd (keyLt_asymm _ _ h h2) (fun hf => hf)

theorem srcLe_trans : ∀ sa sb sc : Option String,
    srcLe sa sb → srcLe sb sc → srcLe sa sc
  | none, none, none, _, _ => trivial
  | none, none, some _, _, h2 => absurd h2 (fun hf => hf)
  | none, some _, _, h1, _ => absurd h1 (fun hf => hf)
  | some _, none, none, _, _ => trivial
  | some _, none, some _, _, h2 => absurd h2 (fun hf => hf)
  | some _, some _, none, _, _ => trivial
  | some x, some y, some z, h1, h2 => by
    simp only [srcLe] at h1 h2 ⊢
    by_cases hxz : keyLt (strKey x) (strKey z) = true
    · exfalso
      by_cases hzy : keyLt (strKey z) (strKey y) = true
      · have := keyLt_trans (strKey x) (strKey z) (strKey y) hxz hzy
        rw [h1] at this
        cases this
      · have hzy2 : keyLt (strKey z) (strKey y) = false := Bool.eq_false_iff.mpr hzy
        have e := keyLt_connex (strKey y) (strKey z) h2 hzy2
        rw [← e] at hxz
        rw [h1] at hxz
        cases hxz
    · exact Bool.eq_false_iff.mpr hxz

theorem compareItems_le_char (a b : TreeElement) :
    compareItems a b ≤ 0 ↔
      (b.timestamp < a.timestamp ∨
        (b.timestamp = a.timestamp ∧ srcLe a.source b.source)) := by
  unfold compareItems
  by_cases hd : b.timestamp - a.timestamp = 0
  · rw [if_pos hd]
    have he : b.timestamp = a.timestamp := by omega
    have hne : ¬b.timestamp < a.timestamp := by omega
    rcases ha : a.source with _ | x <;> rcases hb : b.source with _ | y <;>
      simp only [srcLe]
    · constructor
      · intro _
        exact Or.inr ⟨he, trivial⟩
      · intro _
        show (0:Int) ≤ 0
        norm_num
    · constructor
      · intro h
        have h2 : (1:Int) ≤ 0 := h
        norm_num at h2
      · rintro (h | ⟨_, h⟩)
        · exact absurd h hne
        · exact h.elim
    · constructor
      · intro _
        exact Or.inr ⟨he, trivial⟩
      · intro _
        show (-1:Int) ≤ 0
        norm_num
    · show localeCompareNB y x ≤ 0 ↔
        (b.timestamp < a.timestamp ∨
          (b.timestamp = a.timestamp ∧ keyLt (strKey x) (strKey y) = false))
      rw [localeCompareNB_nonpos_iff]
      constructor
      · intro h
        exact Or.inr ⟨he, h⟩
      · rintro (h | ⟨_, h⟩)
        · exact absurd h hne
        · exact h
  · rw [if_neg hd]
    constructor
    · intro h; exact Or.inl (by omega)
    · rintro (h | ⟨h, _⟩)
      · omega
      · omega

theorem itemLe_total (a b : TreeElement) : ItemLe a b ∨ ItemLe b a := by
  rw [ItemLe, ItemLe, compareItems_le_char, compareItems_le_char]
  rcases lt_trichotomy a.timestamp b.timestamp with ht | ht | ht
  · exact Or.inr (Or.inl ht)
  · rcases srcLe_total a.source b.source with h | h
    · exact Or.inl (Or.inr ⟨ht.symm, h⟩)
    · exact Or.inr (Or.inr ⟨ht, h⟩)
  · exact Or.inl (Or.inl ht)

theorem itemLe_trans (a b c : TreeElement) :
    ItemLe a b → ItemLe b c → ItemLe a c := by
  rw [ItemLe, ItemLe, ItemLe, compareItems_le_char, compareItems_le_char,
    compareItems_le_char]
  rintro (h1 | ⟨e1, s1⟩) (h2 | ⟨e2, s2⟩)
  · exact Or.inl (by omega)
  · exact Or.inl (by omega)
  · exact Or.inl (by omega)
  · exact Or.inr ⟨by omega, srcLe_trans a.source b.source c.source s1 s2⟩

instance : IsTotal TreeElement ItemLe := ⟨itemLe_total⟩

instance : IsTrans TreeElement ItemLe := ⟨itemLe_trans⟩

theorem sortItems_sorted (l : List TreeElement) :
    (sortItems l).Pairwise ItemLe :=
  List.sorted_insertionSort ItemLe l

theorem sortItems_perm (l : List TreeElement) : List.Perm (sortItems l) l :=
  List.perm_insertionSort ItemLe l

/-! ### Concrete fixtures for evaluations and witnesses -/

/-- A timeline item with a defined id. -/
def itemA : TreeElement :=
  { handle := "h1", timestamp := 5, label := "A", id := some "A",
    source := some "s", themeIcon := none }

/-- An older item duplicating `itemA`'s logical id under a fresh handle. -/
def itemB : TreeElement :=
  { handle := "h2", timestamp := 3, label := "B", id := some "A",
    source := some "s", themeIcon := none }

/-- An id-less item of another source. -/
def itemC : TreeElement :=
  { handle := "h3", timestamp := 7, label := "C", id := none,
    source := some "t", themeIcon := none }

/-- The load-more item while a load-more fetch is in flight. -/
def busySentinel : TreeElement :=
  { loadMoreItem with themeIcon := some "sync~spin" }

/-- A cursor record of source "s" reporting more pages. -/
def cursA : TimelineCursors :=
  { startCursors := some { before := "c0", after := none },
    endCursors := none, more := true }

/-- A pending request of source "s" for uri "u" with token id 0 and no
cursor (a full fetch). -/
def reqS : TimelineRequest :=
  { source := "s", uri := "u",
    options := { cursor := none, before := false, limit := none },
    tokenId := 0 }

/-- A resolved timeline carrying one item and no paging. -/
def tlA : Timeline := { source := "s", items := [itemB], paging := none }

/-! ### C10 -/

/-- C10: calling merge with an undefined or empty incoming item list returns
changed=false and leaves the merged item list completely unchanged. -/
theorem c10_merge_empty_noop (current : List TreeElement) (source : String)
    (options : TimelineOptions) :
    mergeItems current source none options = (current, false) ∧
    mergeItems current source (some []) options = (current, false) :=
  ⟨rfl, rfl⟩

/-! ### C9 -/

/-- C9: recording a page: the first page sets `startCursors` to the page's
cursors and `more` to the page's flag defaulting to false; a subsequent
before-direction page backfills `endCursors` from the previous
`startCursors` if unset and then overwrites `startCursors`; a subsequent
after-direction page backfills `startCursors` if unset and then overwrites
`endCursors`; on subsequent pages `more` is overwritten, defaulting to true. -/
theorem c9_recordPage (p : Paging) (c : TimelineCursors) :
    (∀ b : Bool, recordPage none p b =
      { startCursors := some p.cursors, endCursors := none,
        more := p.more.getD false }) ∧
    ((recordPage (some c) p true).startCursors = some p.cursors ∧
      (recordPage (some c) p true).endCursors =
        (if c.endCursors = none then c.startCursors else c.endCursors) ∧
      (recordPage (some c) p true).more = p.more.getD true) ∧
    ((recordPage (some c) p false).endCursors = some p.cursors ∧
      (recordPage (some c) p false).startCursors =
        (if c.startCursors = none then some p.cursors else c.startCursors) ∧
      (recordPage (some c) p false).more = p.more.getD true) := by
  refine ⟨fun b => rfl, ⟨?_, ?_, ?_⟩, ⟨?_, ?_, ?_⟩⟩ <;>
    · unfold recordPage
      by_cases h1 : c.endCursors = none <;> by_cases h2 : c.startCursors = none <;>
        simp [h1, h2]

/-! ### C4 -/

/-- On a stale resolved completion (cancelled token or changed uri) the
handler only performs the `finally` deletion of the pending entry. -/
theorem handleRequest_stale_eq (st : PaneState) (req : TimelineRequest)
    (t : Timeline)
    (h : st.cancelled.contains req.tokenId = true ∨ some req.uri ≠ st.uri) :
    handleRequest st req (.resolved (some t)) =
      { st with pendingRequests := mapDelete st.pendingRequests req.source } := by
  have hcond : (st.cancelled.contains req.tokenId || some req.uri != st.uri) = true := by
    rcases h with h | h
    · rw [h]
      rfl
    · have hb : (some req.uri != st.uri) = true := bne_iff_ne.mpr h
      rw [hb, Bool.or_true]
  unfold handleRequest
  simp only [hcond, if_true]

/-- C4: a completion that arrives after its cancellation token was triggered
or after the target resource changed away is silently discarded: the merged
item list, the cursor store and the user-visible message are unchanged. -/
theorem c4_stale_completion_discarded (st : PaneState) (req : TimelineRequest)
    (t : Option Timeline)
    (h : st.cancelled.contains req.tokenId = true ∨ some req.uri ≠ st.uri) :
    (handleRequest st req (.resolved t)).items = st.items ∧
    (handleRequest st req (.resolved t)).cursorsByProvider = st.cursorsByProvider ∧
    (handleRequest st req (.resolved t)).message = st.message := by
  rcases t with _ | t
  · exact ⟨rfl, rfl, rfl⟩
  · rw [handleRequest_stale_eq st req t h]
    exact ⟨rfl, rfl, rfl⟩

/-- A state whose only pending request has a cancelled token. -/
def stC4 : PaneState :=
  { items := [itemA], cursorsByProvider := [("s", cursA)],
    pendingRequests := [("s", reqS)], cancelled := [0], nextToken := 1,
    uri := some "u", message := none, pendingRefresh := false }

/-- C4 witness: the stale completion of `reqS` against `stC4` changes
neither items nor cursors nor message. -/
theorem c4_witness :
    stC4.cancelled.contains reqS.tokenId = true ∧
    ((handleRequest stC4 reqS (.resolved (some tlA))).items = stC4.items ∧
      (handleRequest stC4 reqS (.resolved (some tlA))).cursorsByProvider =
        stC4.cursorsByProvider ∧
      (handleRequest stC4 reqS (.resolved (some tlA))).message = stC4.message) :=
  ⟨by decide,
    c4_stale_completion_discarded stC4 reqS (some tlA) (Or.inl (by decide))⟩

/-! ### C1 -/

/-- C1 (evaluation of the code at the failing input): merging a
before-direction page whose item duplicates logical id "A" of an entry
inside the most recent window leaves BOTH entries in the list and removes
nothing: the scan condition `item.id === undefined && ids.has(item.id)`
(and its timestamp twin) is never true. The claimed dedup does not happen. -/
theorem c1_dedup_never_removes :
    (mergeItems [itemA] "s" (some [itemB])
        { cursor := some "c", before := true, limit := none }).1.countP
      (fun item => item.id == some "A") = 2 ∧
    itemA ∈ (mergeItems [itemA] "s" (some [itemB])
        { cursor := some "c", before := true, limit := none }).1 ∧
    itemB ∈ (mergeItems [itemA] "s" (some [itemB])
        { cursor := some "c", before := true, limit := none }).1 := by
  decide

/-! ### C2 -/

/-- A state with a cursor entry and a pending request for source "s". -/
def stC2 : PaneState :=
  { items := [itemA], cursorsByProvider := [("s", cursA)],
    pendingRequests := [("s", reqS)], cancelled := [], nextToken := 1,
    uri := some "u", message := none, pendingRefresh := false }

/-- C2 (evaluation of the code at the failing input): a fetch that resolves
to an explicit `undefined` leaves the source's cursor entry untouched — the
guard returns before the (unreachable) cursor-delete branch. A thrown fetch
also leaves the cursor untouched (that half of the claim holds). -/
theorem c2_explicit_undefined_keeps_cursor :
    (handleRequest stC2 reqS (.resolved none)).cursorsByProvider.lookup "s" =
      some cursA ∧
    (handleRequest stC2 reqS (.resolved none)).cursorsByProvider =
      stC2.cursorsByProvider ∧
    (handleRequest stC2 reqS .threw).cursorsByProvider =
      stC2.cursorsByProvider := by
  decide

/-! ### C3 -/

/-- A state with an outstanding (uncancelled) request and a more=true cursor
for source "s". -/
def stC3 : PaneState :=
  { items := [], cursorsByProvider := [("s", cursA)],
    pendingRequests := [("s", reqS)], cancelled := [], nextToken := 1,
    uri := some "u", message := none, pendingRefresh := false }

/-- The state after a non-reset load for source "s" while `reqS` is still
outstanding. -/
def stC3' : PaneState :=
  loadTimelineSource stC3 "s" false
    { cursor := none, before := true, limit := none } SubsequentPageSize

/-- C3 (evaluation of the code at the failing input): issuing a non-reset
load for a source with an outstanding request replaces the pending entry
with a different request that reuses the same token id, cancels nothing
(`cancelled` stays empty), and the superseded request's later completion
still passes the guard and mutates the item list. -/
theorem c3_superseded_request_not_cancelled :
    stC3'.cancelled = [] ∧
    stC3'.pendingRequests.lookup "s" ≠ some reqS ∧
    (stC3'.pendingRequests.lookup "s").map (fun r => r.tokenId) =
      some reqS.tokenId ∧
    (handleRequest stC3' reqS (.resolved (some tlA))).items ≠ stC3'.items := by
  decide

/-! ### C5 -/

/-- The merge result is either the unchanged list or a `sortItems` image. -/
theorem mergeItems_fst_cases (current : List TreeElement) (source : String)
    (items : Option (List TreeElement)) (options : TimelineOptions) :
    (mergeItems current source items options).1 = current ∨
    ∃ l, (mergeItems current source items options).1 = sortItems l := by
  rcases items with _ | its
  · exact Or.inl rfl
  · simp only [mergeItems]
    by_cases hl : its.length = 0
    · rw [if_pos hl]
      exact Or.inl rfl
    · rw [if_neg hl]
      by_cases hb : options.before = true
      · rw [if_pos hb]
        exact Or.inr ⟨_, rfl⟩
      · rw [if_neg hb]
        exact Or.inr ⟨_, rfl⟩

/-- The replace result is the unchanged list, a filtering of it, or a
`sortItems` image. -/
theorem replaceItems_fst_cases (current : List TreeElement) (source : String)
    (items : Option (List TreeElement)) :
    (replaceItems current source items).1 = current ∨
    (replaceItems current source items).1 =
      current.filter (fun item => item.source != some source) ∨
    ∃ l, (replaceItems current source items).1 = sortItems l := by
  rcases items with _ | its
  · simp only [replaceItems]
    by_cases hc : (current.length != 0 &&
        current.any (fun item => item.source == some source)) = true
    · rw [if_pos hc]
      exact Or.inr (Or.inl rfl)
    · rw [if_neg hc]
      exact Or.inl rfl
  · simp only [replaceItems]
    by_cases hl : its.length ≠ 0
    · rw [if_pos hl]
      exact Or.inr (Or.inr ⟨_, rfl⟩)
    · rw [if_neg hl]
      by_cases hc : (current.length != 0 &&
          current.any (fun item => item.source == some source)) = true
      · rw [if_pos hc]
        exact Or.inr (Or.inl rfl)
      · rw [if_neg hc]
        exact Or.inl rfl

/-- C5: after every merge and every replace the merged list is sorted by the
comparator: timestamp descending; on equal timestamps an item with no source
sorts after an item with a source; two sourced items compare by reverse,
case-insensitive, numeric-aware comparison of their source names. -/
theorem c5_sorted (current : List TreeElement) (source : String)
    (items : Option (List TreeElement)) (options : TimelineOptions)
    (h : current.Pairwise ItemLe) :
    (mergeItems current source items options).1.Pairwise ItemLe ∧
    (replaceItems current source items).1.Pairwise ItemLe ∧
    (∀ a b : TreeElement, b.timestamp < a.timestamp → compareItems a b < 0) ∧
    (∀ a b : TreeElement, a.timestamp = b.timestamp → a.source = none →
      b.source ≠ none → 0 < compareItems a b) ∧
    (∀ (a b : TreeElement) (x y : String), a.timestamp = b.timestamp →
      a.source = some x → b.source = some y →
      compareItems a b = localeCompareNB y x) := by
  refine ⟨?_, ?_, ?_, ?_, ?_⟩
  · rcases mergeItems_fst_cases current source items options with he | ⟨l, he⟩
    · rw [he]; exact h
    · rw [he]; exact sortItems_sorted l
  · rcases replaceItems_fst_cases current source items with he | he | ⟨l, he⟩
    · rw [he]; exact h
    · rw [he]; exact List.Pairwise.sublist (List.filter_sublist current) h
    · rw [he]; exact sortItems_sorted l
  · intro a b hts
    unfold compareItems
    rw [if_neg (by omega)]
    omega
  · intro a b he ha hb
    obtain ⟨y, hy⟩ : ∃ y, b.source = some y := by
      rcases hb2 : b.source with _ | y
      · exact absurd hb2 hb
      · exact ⟨y, rfl⟩
    unfold compareItems
    rw [if_pos (by omega)]
    simp only [ha, hy]
    norm_num
  · intro a b x y he hx hy
    unfold compareItems
    rw [if_pos (by omega)]
    simp only [hx, hy]

/-- C5 witness: a concrete sorted list stays sorted through merge and
replace. -/
theorem c5_witness :
    ([itemA, itemB].Pairwise ItemLe) ∧
    (mergeItems [itemA, itemB] "s" (some [itemC])
        { cursor := some "c", before := true, limit := none }).1.Pairwise ItemLe ∧
    (replaceItems [itemA, itemB] "t" (some [itemC])).1.Pairwise ItemLe :=
  ⟨by decide,
    (c5_sorted [itemA, itemB] "s" (some [itemC])
      { cursor := some "c", before := true, limit := none } (by decide)).1,
    (c5_sorted [itemA, itemB] "t" (some [itemC]) {} (by decide)).2.1⟩

/-! ### C8 -/

/-- C8: replace removes every entry of the given source before inserting the
new items — the result is a permutation of the retained other-source entries
followed by the new items — and the changed flag is true exactly when the
new item list is non-empty or some entry of that source existed (so
replacing with an empty list while prior items of the source exist reports a
change and those items vanish). -/
theorem c8_replace (current : List TreeElement) (source : String)
    (items : Option (List TreeElement)) :
    List.Perm (replaceItems current source items).1
      ((current.filter (fun item => item.source != some source)) ++
        items.getD []) ∧
    ((replaceItems current source items).2 = true ↔
      (items.getD [] ≠ [] ∨
        current.any (fun item => item.source == some source) = true)) := by
  have hfilter_all :
      current.any (fun item => item.source == some source) = false →
      current.filter (fun item => item.source != some source) = current := by
    intro hany
    apply List.filter_eq_self.mpr
    intro a ha
    cases hbeq : a.source == some source
    · simp [bne, hbeq]
    · exfalso
      have : current.any (fun item => item.source == some source) = true :=
        List.any_eq_true.mpr ⟨a, ha, hbeq⟩
      rw [hany] at this
      cases this
  rcases items with _ | its
  · simp only [replaceItems, Option.getD_none, List.append_nil]
    by_cases hany : current.any (fun item => item.source == some source) = true
    · have hne : (current.length != 0) = true := by
        cases current
        · simp [List.any] at hany
        · simp
      rw [if_pos (by rw [hne, hany]; rfl)]
      exact ⟨List.Perm.refl _, by simp [hany]⟩
    · have hany2 : current.any (fun item => item.source == some source) = false :=
        Bool.eq_false_iff.mpr hany
      rw [if_neg (by rw [hany2, Bool.and_false]; intro hf; cases hf)]
      constructor
      · rw [hfilter_all hany2]
      · simp [hany2]
  · by_cases hl : its.length ≠ 0
    · simp only [replaceItems, Option.getD_some]
      rw [if_pos hl]
      have hits : its ≠ [] := by
        intro he
        rw [he] at hl
        exact hl rfl
      exact ⟨sortItems_perm _, by simp [hits]⟩
    · have hitse : its = [] := by
        cases its
        · rfl
        · exact absurd (by simp) hl
      subst hitse
      simp only [replaceItems, Option.getD_some, List.append_nil]
      rw [if_neg hl]
      by_cases hany : current.any (fun item => item.source == some source) = true
      · have hne : (current.length != 0) = true := by
          cases current
          · simp [List.any] at hany
          · simp
        rw [if_pos (by rw [hne, hany]; rfl)]
        exact ⟨List.Perm.refl _, by simp [hany]⟩
      · have hany2 : current.any (fun item => item.source == some source) = false :=
          Bool.eq_false_iff.mpr hany
        rw [if_neg (by rw [hany2, Bool.and_false]; intro hf; cases hf)]
        constructor
        · rw [hfilter_all hany2]
        · simp [hany2]

/-! ### C6 -/

/-- An item colliding with `itemA` on `handle` but not on `id`. -/
def itemDup : TreeElement :=
  { handle := "h1", timestamp := 3, label := "D", id := some "B",
    source := some "s", themeIcon := none }

/-- C6 counterexample: merging a before-direction page whose item reuses an
existing handle (with a different logical id) produces two distinct entries
with the same handle — nothing in merge dedups by handle. -/
theorem c6_counterexample :
    (([itemA].map (fun item => item.handle)).Nodup) ∧
    ¬(((mergeItems [itemA] "s" (some [itemDup])
        { cursor := some "c", before := true, limit := none }).1.map
          (fun item => item.handle)).Nodup) := by
  decide

/-- Fresh incoming handles appended to a handle-unique list keep the handle
list unique. -/
theorem nodup_handles_append (its current : List TreeElement)
    (hc : (current.map (fun item => item.handle)).Nodup)
    (hi : (its.map (fun item => item.handle)).Nodup)
    (hd : ∀ a ∈ its, ∀ b ∈ current, a.handle ≠ b.handle) :
    ((its ++ current).map (fun item => item.handle)).Nodup := by
  rw [List.map_append, List.nodup_append]
  refine ⟨hi, hc, ?_⟩
  intro x hx hy
  obtain ⟨a, ha, hax⟩ := List.mem_map.mp hx
  obtain ⟨b, hb, hbx⟩ := List.mem_map.mp hy
  exact hd a ha b hb (hax.symm ▸ hbx.symm ▸ rfl)

/-- Sorting a sublist of a handle-unique list yields unique handles. -/
theorem nodup_handles_sortItems_of_sublist (l big : List TreeElement)
    (hsub : l.Sublist big)
    (hb : (big.map (fun item => item.handle)).Nodup) :
    ((sortItems l).map (fun item => item.handle)).Nodup := by
  have h1 : (l.map (fun item => item.handle)).Nodup :=
    List.Nodup.sublist (hsub.map (fun item => item.handle)) hb
  exact ((sortItems_perm l).map (fun item => item.handle)).nodup_iff.mpr h1

/-- C6 (amended): provided the incoming items' handles are pairwise distinct
and distinct from every handle already present, merge and replace preserve
handle uniqueness of the merged list. -/
theorem c6_handle_unique_amended (current : List TreeElement) (source : String)
    (its : List TreeElement) (options : TimelineOptions)
    (hc : (current.map (fun item => item.handle)).Nodup)
    (hi : (its.map (fun item => item.handle)).Nodup)
    (hd : ∀ a ∈ its, ∀ b ∈ current, a.handle ≠ b.handle) :
    ((mergeItems current source (some its) options).1.map
        (fun item => item.handle)).Nodup ∧
    ((replaceItems current source (some its)).1.map
        (fun item => item.handle)).Nodup := by
  have hbig := nodup_handles_append its current hc hi hd
  have hbig2 : ((current ++ its).map (fun item => item.handle)).Nodup := by
    have hperm : List.Perm (current ++ its) (its ++ current) :=
      List.perm_append_comm
    exact ((hperm.map (fun item => item.handle)).nodup_iff).mpr hbig
  constructor
  · simp only [mergeItems]
    by_cases hl : its.length = 0
    · rw [if_pos hl]
      exact hc
    · rw [if_neg hl]
      by_cases hb : options.before = true
      · rw [if_pos hb]
        dsimp only
        apply nodup_handles_sortItems_of_sublist _ (its ++ current) _ hbig
        apply (List.append_sublist_append_left its).mpr
        have hkept :
            (((current.take (min SubsequentPageSize current.length)).filter
                (fun item =>
                  !((item.id == none && idSetHas (its.filterMap (fun item => item.id)) item.id) ||
                    (false && ((its.filter (fun item => item.id == none)).map
                      (fun item => item.timestamp)).contains item.timestamp)))) ++
              current.drop (min SubsequentPageSize current.length)).Sublist
            (current.take (min SubsequentPageSize current.length) ++
              current.drop (min SubsequentPageSize current.length)) :=
          List.Sublist.append (List.filter_sublist _) (List.Sublist.refl _)
        rw [List.take_append_drop] at hkept
        exact hkept
      · rw [if_neg hb]
        dsimp only
        exact nodup_handles_sortItems_of_sublist _ (current ++ its)
          (List.Sublist.refl _) hbig2
  · simp only [replaceItems]
    by_cases hl : its.length ≠ 0
    · rw [if_pos hl]
      dsimp only
      apply nodup_handles_sortItems_of_sublist _ (current ++ its) _ hbig2
      exact (List.append_sublist_append_right its).mpr (List.filter_sublist _)
    · rw [if_neg hl]
      by_cases hcond : (current.length != 0 &&
          current.any (fun item => item.source == some source)) = true
      · rw [if_pos hcond]
        dsimp only
        exact List.Nodup.sublist
          (List.Sublist.map (fun item : TreeElement => item.handle)
            (List.filter_sublist current)) hc
      · rw [if_neg hcond]
        exact hc

/-- C6 witness: concrete merge and replace with fresh handles stay
handle-unique. -/
theorem c6_witness :
    (([itemA].map (fun item => item.handle)).Nodup) ∧
    (([itemB].map (fun item => item.handle)).Nodup) ∧
    ((mergeItems [itemA] "s" (some [itemB])
        { cursor := some "c", before := true, limit := none }).1.map
        (fun item => item.handle)).Nodup ∧
    ((replaceItems [itemA] "s" (some [itemB])).1.map
        (fun item => item.handle)).Nodup :=
  ⟨by decide, by decide,
    (c6_handle_unique_amended [itemA] "s" [itemB]
      { cursor := some "c", before := true, limit := none }
      (by decide) (by decide) (by decide)).1,
    (c6_handle_unique_amended [itemA] "s" [itemB] {}
      (by decide) (by decide) (by decide)).2⟩

/-! ### C7 -/

/-- The entry written by `mapSet` is in the resulting map. -/
theorem mem_mapSet {α : Type} (m : List (String × α)) (k : String) (v : α) :
    (k, v) ∈ mapSet m k v := by
  unfold mapSet
  split
  · rename_i h
    obtain ⟨kv, hmem, hk⟩ := List.any_eq_true.mp h
    have hk2 : kv.1 = k := by simpa using hk
    have hfn : (if kv.1 == k then (kv.1, v) else kv) = (k, v) := by
      rw [if_pos (by simp [hk2])]
      rw [hk2]
    exact hfn ▸ List.mem_map_of_mem _ hmem
  · exact List.mem_append.mpr (Or.inr (by simp))

/-- If the arriving page asserts `more`, the updated cursor map reports some
source with more pages. -/
theorem anyCursorMore_applyPaging (cursors : List (String × TimelineCursors))
    (t : Timeline) (b : Bool) (h : pagingMoreFlag t = true) :
    anyCursorMore (applyPaging cursors t b) = true := by
  rcases hp : t.paging with _ | p
  · rw [pagingMoreFlag, hp] at h
    cases h
  · simp only [pagingMoreFlag, hp] at h
    have hm : p.more = some true := by
      rcases hm2 : p.more with _ | mb
      · rw [hm2] at h
        cases h
      · rw [hm2] at h
        simp only [Option.getD_some] at h
        rw [h]
    have hrec : (recordPage (cursors.lookup t.source) p b).more = true := by
      unfold recordPage
      rcases cursors.lookup t.source with _ | c
      · simp [hm]
      · rcases b <;> simp [hm]
    unfold applyPaging
    rw [hp]
    apply List.any_eq_true.mpr
    exact ⟨(t.source, recordPage (cursors.lookup t.source) p b),
      mem_mapSet _ _ _, by simp [hrec]⟩

/-- On a valid, changed, settling completion with a non-empty merged list,
the final item list is the sentinel-maintained merged list. -/
theorem handleRequest_settle_items (st : PaneState) (req : TimelineRequest)
    (t : Timeline)
    (hc : st.cancelled.contains req.tokenId = false)
    (hu : some req.uri = st.uri)
    (hp : mapDelete st.pendingRequests req.source = [])
    (hch : (applyItems st.items req t.items).2 = true)
    (hne : (applyItems st.items req t.items).1 ≠ []) :
    (handleRequest st req (.resolved (some t))).items =
      updateSentinel (applyItems st.items req t.items).1 (pagingMoreFlag t)
        (anyCursorMore (applyPaging st.cursorsByProvider t req.options.before)) := by
  have hbne : (some req.uri != st.uri) = false := by
    rw [bne, beq_iff_eq.mpr hu]
    rfl
  have hne2 : ((applyItems st.items req t.items).1.length != 0) = true := by
    rcases hll : (applyItems st.items req t.items).1 with _ | ⟨a, as⟩
    · exact absurd hll hne
    · simp
  unfold handleRequest
  simp only [hc, hbne, Bool.or_self, Bool.false_eq_true, Bool.true_eq_false,
    if_false, hp, hch, hne2, List.length_nil, beq_self_eq_true, Bool.true_and,
    Bool.and_true, Bool.and_false, refresh, Bool.and_self, bne_self_eq_false,
    Bool.false_and, if_true]

/-- A pending incremental (cursor-bearing, before-direction) request. -/
def reqMerge : TimelineRequest :=
  { source := "s", uri := "u",
    options := { cursor := some "c", before := true, limit := none },
    tokenId := 0 }

/-- A list ending in the busy sentinel, with one real item, while `reqMerge`
is the only outstanding request. -/
def stC7 : PaneState :=
  { items := [itemA, busySentinel], cursorsByProvider := [("s", cursA)],
    pendingRequests := [("s", reqMerge)], cancelled := [], nextToken := 1,
    uri := some "u", message := none, pendingRefresh := false }

/-- An empty terminal page: no items, paging with `more: false`. -/
def tlEmpty : Timeline :=
  { source := "s", items := [],
    paging := some { cursors := { before := "c1", after := none },
                     more := some false } }

/-- C7 counterexample: the last outstanding request settles with a non-empty
list, every cursor reports more=false afterwards, and the sentinel is
present — yet it is neither removed nor un-busied, because the completion's
merge reported no change and the handler returned before the sentinel
maintenance block. -/
theorem c7_counterexample :
    (handleRequest stC7 reqMerge (.resolved (some tlEmpty))).pendingRequests = [] ∧
    anyCursorMore
      (handleRequest stC7 reqMerge (.resolved (some tlEmpty))).cursorsByProvider = false ∧
    (handleRequest stC7 reqMerge (.resolved (some tlEmpty))).items ≠ [] ∧
    (handleRequest stC7 reqMerge (.resolved (some tlEmpty))).items.getLast? =
      some busySentinel ∧
    isLoadMoreCommandItem busySentinel = true ∧
    busySentinel.themeIcon ≠ none := by
  decide

/-- C7 (amended): at a completion that passes the guard, whose merge or
replace reported a change, and after which no request is outstanding, with a
non-empty merged list: if afterwards no source's cursor reports more and the
merged list ends with the load-more sentinel, the sentinel is removed; if
some source's cursor reports more, the final list ends with the load-more
sentinel with its busy flag cleared. -/
theorem c7_sentinel_amended (st : PaneState) (req : TimelineRequest)
    (t : Timeline)
    (hc : st.cancelled.contains req.tokenId = false)
    (hu : some req.uri = st.uri)
    (hp : mapDelete st.pendingRequests req.source = [])
    (hch : (applyItems st.items req t.items).2 = true)
    (hne : (applyItems st.items req t.items).1 ≠ []) :
    (anyCursorMore (applyPaging st.cursorsByProvider t req.options.before) = false →
      ∀ l, (applyItems st.items req t.items).1.getLast? = some l →
        isLoadMoreCommandItem l = true →
        (handleRequest st req (.resolved (some t))).items =
          (applyItems st.items req t.items).1.dropLast) ∧
    (anyCursorMore (applyPaging st.cursorsByProvider t req.options.before) = true →
      ∃ l, (handleRequest st req (.resolved (some t))).items.getLast? = some l ∧
        isLoadMoreCommandItem l = true ∧ l.themeIcon = none) := by
  have heq := handleRequest_settle_items st req t hc hu hp hch hne
  constructor
  · intro ham l hl hlm
    have hpm : pagingMoreFlag t = false := by
      cases hflag : pagingMoreFlag t
      · rfl
      · have := anyCursorMore_applyPaging st.cursorsByProvider t
          req.options.before hflag
        rw [ham] at this
        cases this
    rw [heq, hpm, ham]
    unfold updateSentinel
    rw [hl]
    simp [hlm]
  · intro ham
    rw [heq, ham]
    unfold updateSentinel
    rcases hl : (applyItems st.items req t.items).1.getLast? with _ | l
    · exact absurd (List.getLast?_eq_none_iff.mp hl) hne
    · simp only [Bool.or_true]
      by_cases hlm : isLoadMoreCommandItem l = true
      · refine ⟨{ l with themeIcon := none }, ?_, ?_, rfl⟩
        · simp [hlm, List.getLast?_concat]
        · rw [isLoadMoreCommandItem] at hlm ⊢
          exact hlm
      · refine ⟨loadMoreItem, ?_, by decide, rfl⟩
        simp [hlm, List.getLast?_concat]

/-- State for the C7 witness: one real item, one outstanding incremental
request. -/
def stC7w : PaneState :=
  { items := [itemA], cursorsByProvider := [("s", cursA)],
    pendingRequests := [("s", reqMerge)], cancelled := [], nextToken := 1,
    uri := some "u", message := none, pendingRefresh := false }

/-- A page with one item asserting more pages remain. -/
def tlMore : Timeline :=
  { source := "s", items := [itemB],
    paging := some { cursors := { before := "c1", after := none },
                     more := some true } }

/-- C7 witness: a concrete changed settling completion with more=true ends
with a non-busy load-more sentinel. -/
theorem c7_witness :
    (stC7w.cancelled.contains reqMerge.tokenId = false) ∧
    (some reqMerge.uri = stC7w.uri) ∧
    (mapDelete stC7w.pendingRequests reqMerge.source = []) ∧
    ((applyItems stC7w.items reqMerge tlMore.items).2 = true) ∧
    ((applyItems stC7w.items reqMerge tlMore.items).1 ≠ []) ∧
    (∃ l, (handleRequest stC7w reqMerge (.resolved (some tlMore))).items.getLast? =
        some l ∧ isLoadMoreCommandItem l = true ∧ l.themeIcon = none) :=
  ⟨by decide, by decide, by decide, by decide, by decide,
    (c7_sentinel_amended stC7w reqMerge tlMore (by decide) (by decide)
      (by decide) (by decide) (by decide)).2 (by decide)⟩
